import Mathlib

/-!
Verification of `scripts/generate_downloads.py` (helm-binary-py).

The script resolves a Helm release tag (from `--tag` or from the
`setup.cfg` metadata version), fetches a sha256 checksum per platform from
`https://get.helm.sh`, renders a fixed multi-section download-scripts
template and writes it back into `setup.cfg`.

The shallow embedding below models:
  * Python string helpers used by the script (`str.removeprefix`,
    `str.split(sep)` / `str.split()` with no argument);
  * `get_hash_from_url` (lines 29-33) over an abstract network oracle
    `String → Option HttpResponse` (`none` = transport failure,
    4xx/5xx status = `raise_for_status`);
  * the body of `main` (lines 36-165): the version check, the fallback
    tag computation, the tag-selection truthiness test, the sequential
    fetch loop over `URL_PATTERNS`, and the template render
    (`dedent(...).strip()` of the f-string on lines 73-158).
Exceptions become `Except PyErr`; the list of checksum URLs requested is
returned alongside the result so that claims about request ordering and
abort behaviour are statable.  The config file is written only in the
`.ok` branch of `main`, whose payload is the list of lines passed to
`set_values` (line 160-162); an `.error` result models the process
aborting with the config file untouched.
-/

namespace GenerateDownloads

/-- Errors raised by the script, by Python exception kind. -/
inductive PyErr where
  | valueError (msg : String)
  | keyError (key : String)
  | httpError (url : String)
  | indexError
deriving DecidableEq, Repr

/-- An HTTP response as seen by `requests.get`: status code and body text. -/
structure HttpResponse where
  status : Nat
  text : String
deriving DecidableEq, Repr

/-- A network oracle: `none` models a transport-level failure
(`requests` raising a `ConnectionError` before any response exists). -/
def Net : Type := String → Option HttpResponse

/-- Python `s.removeprefix(p)`: drop `p` from the front of `s` when it is
a prefix, otherwise return `s` unchanged (over character lists). -/
def pyRemovePrefix (p s : List Char) : List Char :=
  if p.isPrefixOf s then s.drop p.length else s

/-- Python `s.split(sep)` with an explicit one-character separator: split
at every occurrence of `sep`, keeping empty fields (so the result is
always nonempty; `''.split('-') == ['']`). -/
def pySplitSep (sep : Char) : List Char → List (List Char)
  | [] => [[]]
  | c :: cs =>
    if c = sep then
      [] :: pySplitSep sep cs
    else
      match pySplitSep sep cs with
      | [] => [[c]]
      | t :: ts => (c :: t) :: ts

/-- Python `s.split()` with no argument: split on runs of whitespace,
discarding empty fields.  `acc` holds the current token, reversed. -/
def pySplitWsAux : List Char → List Char → List (List Char)
  | [], acc => if acc.isEmpty then [] else [acc.reverse]
  | c :: cs, acc =>
    if c.isWhitespace then
      if acc.isEmpty then pySplitWsAux cs [] else acc.reverse :: pySplitWsAux cs []
    else
      pySplitWsAux cs (c :: acc)

/-- Python `s.split()` with no argument, over a `String`. -/
def pySplitWs (s : String) : List (List Char) :=
  pySplitWsAux s.data []

/-- Line 58: `config_tag = 'v' + config_version.removeprefix('v').split('-')[0]`. -/
def config_tag (config_version : String) : String :=
  "v" ++ String.mk ((pySplitSep '-' (pyRemovePrefix ['v'] config_version.data)).headD [])

/-- Line 61: `version = tag if tag else config_tag`.  `tag` is
`args.tag : str | None`; Python truthiness makes both `None` and the
empty string fall back to `config_tag`. -/
def selectVersion (tag : Option String) (fallback : String) : String :=
  match tag with
  | none => fallback
  | some t => if t = "" then fallback else t

/-- Spec-side definition of the fallback tag, written from the spec's
words for comparison with `config_tag`: "`v` followed by s with one
leading `v` prefix removed (if present) and truncated at the first `-`
separator". -/
def specFallbackTag (s : String) : String :=
  let core :=
    match s.data with
    | 'v' :: rest => rest
    | other => other
  "v" ++ String.mk (core.takeWhile (fun c => c ≠ '-'))

/-! Helper lemmas about the Python string helpers. -/

theorem pySplitSep_ne_nil (sep : Char) (l : List Char) :
    pySplitSep sep l ≠ [] := by
  cases l with
  | nil => simp [pySplitSep]
  | cons c cs =>
    simp only [pySplitSep]
    by_cases h : c = sep
    · simp [h]
    · simp only [h, if_false]
      cases pySplitSep sep cs <;> simp

theorem pySplitSep_head (sep : Char) (l : List Char) :
    (pySplitSep sep l).headD [] = l.takeWhile (fun c => c ≠ sep) := by
  induction l with
  | nil => simp [pySplitSep]
  | cons c cs ih =>
    simp only [pySplitSep]
    by_cases h : c = sep
    · simp [h, List.takeWhile]
    · simp only [h, if_false]
      have hne := pySplitSep_ne_nil sep cs
      cases hcs : pySplitSep sep cs with
      | nil => exact absurd hcs hne
      | cons t ts =>
        rw [hcs] at ih
        simp only [List.headD_cons] at ih
        simp [List.takeWhile, h, ih]

theorem pyRemovePrefix_v (l : List Char) :
    pyRemovePrefix ['v'] l = (match l with | 'v' :: rest => rest | other => other) := by
  cases l with
  | nil => simp [pyRemovePrefix, List.isPrefixOf]
  | cons c cs =>
    by_cases h : c = 'v'
    · subst h
      simp [pyRemovePrefix, List.isPrefixOf]
    · simp only [pyRemovePrefix, List.isPrefixOf, List.isPrefixOf_nil_left,
        Bool.and_true]
      have : ('v' == c) = false := by
        simp [beq_iff_eq]
        exact fun he => h he.symm
      simp [this]
      cases cs <;> simp_all

/-- C1: the fallback tag computed on line 58 equals `v` + (version with
one leading `v` removed, truncated at the first `-`); in particular
`3.14.2-rc1 ↦ v3.14.2` and `v3.14.2-rc1 ↦ v3.14.2`. -/
theorem config_tag_spec :
    (∀ s : String, config_tag s = specFallbackTag s) ∧
    config_tag "3.14.2-rc1" = "v3.14.2" ∧
    config_tag "v3.14.2-rc1" = "v3.14.2" := by
  refine ⟨fun s => ?_, by decide, by decide⟩
  unfold config_tag specFallbackTag
  rw [pySplitSep_head, pyRemovePrefix_v]

/-- C2 counterexample: `--tag ''` is not used verbatim; with fallback
`v1.0.0` the selected version is `v1.0.0`, not the supplied empty tag. -/
theorem selectVersion_empty_tag_not_verbatim :
    selectVersion (some "") "v1.0.0" = "v1.0.0" ∧ "v1.0.0" ≠ "" := by
  constructor
  · rfl
  · decide

/-- C2 (amended): every explicitly supplied nonempty `--tag` string is
used verbatim as the version, with no normalization. -/
theorem selectVersion_nonempty_verbatim (t : String) (h : t ≠ "") :
    ∀ fallback : String, selectVersion (some t) fallback = t := by
  intro fallback
  simp [selectVersion, h]

/-- Witness for `selectVersion_nonempty_verbatim` at `t = "v9.9.9"`. -/
theorem selectVersion_nonempty_verbatim_witness :
    selectVersion (some "v9.9.9") "vFallback" = "v9.9.9" :=
  selectVersion_nonempty_verbatim "v9.9.9" (by decide) "vFallback"

/-- C8: an empty `--tag` value is treated as absent — the selection on
line 61 tests truthiness, so `some ""` behaves exactly like `none` and
the config-derived fallback tag is used. -/
theorem selectVersion_empty_falls_back :
    ∀ fallback : String,
      selectVersion (some "") fallback = fallback ∧
      selectVersion (some "") fallback = selectVersion none fallback := by
  intro fallback
  exact ⟨rfl, rfl⟩

/-- Python `'...%s...' % version`: substitute `version` for the first
`%s` conversion in the pattern (each `URL_PATTERNS` value contains
exactly one). -/
def pyFmtS : List Char → List Char → List Char
  | '%' :: 's' :: rest, v => v ++ rest
  | c :: rest, v => c :: pyFmtS rest v
  | [], _ => []

/-- Lines 14-26: `URL_PATTERNS`, an ordered platform → URL-template
mapping (Python dicts preserve insertion order). -/
def URL_PATTERNS : List (String × String) :=
  [("linux-arm", "https://get.helm.sh/helm-%s-linux-arm.tar.gz"),
   ("linux-arm64", "https://get.helm.sh/helm-%s-linux-arm64.tar.gz"),
   ("linux-riscv64", "https://get.helm.sh/helm-%s-linux-riscv64.tar.gz"),
   ("linux-386", "https://get.helm.sh/helm-%s-linux-386.tar.gz"),
   ("linux-amd64", "https://get.helm.sh/helm-%s-linux-amd64.tar.gz"),
   ("linux-ppc64le", "https://get.helm.sh/helm-%s-linux-ppc64le.tar.gz"),
   ("linux-s390x", "https://get.helm.sh/helm-%s-linux-s390x.tar.gz"),
   ("darwin-arm64", "https://get.helm.sh/helm-%s-darwin-arm64.tar.gz"),
   ("darwin-amd64", "https://get.helm.sh/helm-%s-darwin-amd64.tar.gz"),
   ("windows-arm64", "https://get.helm.sh/helm-%s-windows-arm64.zip"),
   ("windows-amd64", "https://get.helm.sh/helm-%s-windows-amd64.zip")]

/-- Line 65: `url = url_pattern % version`. -/
def download_url (url_pattern version : String) : String :=
  String.mk (pyFmtS url_pattern.data version.data)

/-- Line 66: `sha256_url = url + '.sha256sum'`. -/
def sha256_url (url_pattern version : String) : String :=
  download_url url_pattern version ++ ".sha256sum"

/-- Lines 68-71: the per-platform dict `{'url': url, 'sha256': sha256}`. -/
structure Descriptor where
  url : String
  sha256 : String
deriving DecidableEq, Repr

/-- Lines 29-33: `get_hash_from_url`.  `requests.get` raising a
transport error is `net url = none`; `raise_for_status()` raises for
status codes in `[400, 600)`; `response.text.split()[0]` raises
IndexError when the body has no whitespace-delimited token. -/
def get_hash_from_url (net : Net) (url : String) : Except PyErr String :=
  match net url with
  | none => .error (.httpError url)
  | some r =>
    if 400 ≤ r.status ∧ r.status < 600 then
      .error (.httpError url)
    else
      match pySplitWs r.text with
      | [] => .error .indexError
      | t :: _ => .ok (String.mk t)

/-- Lines 63-71: the fetch loop of `main`.  Returns the checksum URLs
requested, in order, together with either the platform → descriptor
mapping (insertion order preserved) or the first error, which aborts the
loop before any further request. -/
def fetchLoop (net : Net) (version : String) :
    List (String × String) → List String × Except PyErr (List (String × Descriptor))
  | [] => ([], Except.ok [])
  | (platform, url_pattern) :: rest =>
    match get_hash_from_url net (sha256_url url_pattern version) with
    | .error e => ([sha256_url url_pattern version], .error e)
    | .ok sha256 =>
      match fetchLoop net version rest with
      | (reqs, res) =>
        (sha256_url url_pattern version :: reqs,
         res.map (fun d => (platform, ⟨download_url url_pattern version, sha256⟩) :: d))

/-- C3: for every pattern in `URL_PATTERNS` and every tag the checksum
URL is the download URL plus `.sha256sum`; for `linux-amd64` and tag
`v3.14.2` the download URL is the template with `%s` replaced by the tag
and the checksum URL appends the fixed suffix. -/
theorem url_construction (p : String × String) (_hp : p ∈ URL_PATTERNS) (tag : String) :
    sha256_url p.2 tag = download_url p.2 tag ++ ".sha256sum" ∧
    URL_PATTERNS.lookup "linux-amd64" =
      some "https://get.helm.sh/helm-%s-linux-amd64.tar.gz" ∧
    download_url "https://get.helm.sh/helm-%s-linux-amd64.tar.gz" "v3.14.2" =
      "https://get.helm.sh/helm-v3.14.2-linux-amd64.tar.gz" ∧
    sha256_url "https://get.helm.sh/helm-%s-linux-amd64.tar.gz" "v3.14.2" =
      "https://get.helm.sh/helm-v3.14.2-linux-amd64.tar.gz.sha256sum" :=
  ⟨rfl, by decide, by decide, by decide⟩

/-- Witness for `url_construction` at the `linux-arm` entry and tag `v1`. -/
theorem url_construction_witness :
    sha256_url "https://get.helm.sh/helm-%s-linux-arm.tar.gz" "v1" =
      download_url "https://get.helm.sh/helm-%s-linux-arm.tar.gz" "v1" ++ ".sha256sum" :=
  (url_construction ("linux-arm", "https://get.helm.sh/helm-%s-linux-arm.tar.gz")
    (by decide) "v1").1

theorem pySplitWsAux_eq_nil_iff (l acc : List Char) :
    pySplitWsAux l acc = [] ↔ (acc = [] ∧ ∀ c ∈ l, c.isWhitespace) := by
  induction l generalizing acc with
  | nil =>
    by_cases h : acc = []
    · simp [pySplitWsAux, h]
    · simp [pySplitWsAux, List.isEmpty_iff, h]
  | cons c cs ih =>
    by_cases hw : c.isWhitespace
    · by_cases h : acc = []
      · simp [pySplitWsAux, h, List.isEmpty_iff, hw, ih]
      · simp [pySplitWsAux, List.isEmpty_iff, h, hw]
    · simp [pySplitWsAux, hw, ih]

/-- C9: on a success-status response, `get_hash_from_url` raises
IndexError when the body is empty or all-whitespace; extracting the
first token succeeds exactly when the body contains a non-whitespace
character. -/
theorem get_hash_whitespace_body (net : Net) (url : String) (r : HttpResponse)
    (hr : net url = some r) (hs : r.status < 400) :
    ((∀ c ∈ r.text.data, c.isWhitespace) →
        get_hash_from_url net url = .error .indexError) ∧
    ((∃ h, get_hash_from_url net url = .ok h) ↔
        ∃ c ∈ r.text.data, ¬ c.isWhitespace) := by
  have hcond : ¬ (400 ≤ r.status ∧ r.status < 600) := by
    rintro ⟨h4, -⟩
    exact absurd hs (Nat.not_lt.mpr h4)
  constructor
  · intro hws
    have : pySplitWs r.text = [] := by
      rw [pySplitWs, pySplitWsAux_eq_nil_iff]
      exact ⟨rfl, hws⟩
    simp [get_hash_from_url, hr, hcond, this]
  · constructor
    · rintro ⟨h, hh⟩
      by_contra hnone
      push_neg at hnone
      have : pySplitWs r.text = [] := by
        rw [pySplitWs, pySplitWsAux_eq_nil_iff]
        exact ⟨rfl, hnone⟩
      simp [get_hash_from_url, hr, hcond, this] at hh
    · rintro ⟨c, hc, hcw⟩
      have hne : pySplitWs r.text ≠ [] := by
        rw [pySplitWs, Ne, pySplitWsAux_eq_nil_iff]
        rintro ⟨-, hall⟩
        exact hcw (hall c hc)
      cases hsplit : pySplitWs r.text with
      | nil => exact absurd hsplit hne
      | cons t ts =>
        exact ⟨String.mk t, by simp [get_hash_from_url, hr, hcond, hsplit]⟩

/-- Witness for `get_hash_whitespace_body`: a success response whose
body is whitespace only yields an IndexError. -/
theorem get_hash_whitespace_body_witness :
    get_hash_from_url (fun _ => some ⟨200, " \n\t"⟩) "u" = .error .indexError :=
  (get_hash_whitespace_body (fun _ => some ⟨200, " \n\t"⟩) "u" ⟨200, " \n\t"⟩
    rfl (by decide)).1 (by decide)

/-- The value read from `config['metadata']['version']` on line 54;
`nonStr` stands for any non-`str` value, rejected by the
`isinstance(config_version, str)` check on lines 55-56. -/
inductive ConfigVal where
  | str (s : String)
  | nonStr
deriving DecidableEq, Repr

/-- The environment `main` runs in: the network, and the value found at
`metadata.version` in `setup.cfg`. -/
structure Env where
  net : Net
  configVersion : ConfigVal

/-- One `[section]` of the f-string template (lines 73-158): its header,
its static marker lines, the platform key used in that section's
`data[...]` lookups, and its static extract method and path. -/
structure ScriptSection where
  header : String
  markers : List String
  platformKey : String
  extract : String
  extract_path : String
deriving DecidableEq, Repr

/-- The eleven sections of the template, in the order they appear on
lines 75-156 (note `windows-amd64` precedes `windows-arm64` here, the
reverse of their `URL_PATTERNS` order). -/
def templateSections : List ScriptSection :=
  [⟨"helm",
    ["sys_platform == \"linux\" and platform_machine == \"armv6hf\"",
     "sys_platform == \"linux\" and platform_machine == \"armv7l\""],
    "linux-arm", "tar", "linux-arm/helm"⟩,
   ⟨"helm",
    ["sys_platform == \"linux\" and platform_machine == \"aarch64\""],
    "linux-arm64", "tar", "linux-arm64/helm"⟩,
   ⟨"helm",
    ["sys_platform == \"linux\" and platform_machine == \"riscv64\""],
    "linux-riscv64", "tar", "linux-riscv64/helm"⟩,
   ⟨"helm",
    ["sys_platform == \"linux\" and platform_machine == \"i386\"",
     "sys_platform == \"linux\" and platform_machine == \"i686\""],
    "linux-386", "tar", "linux-386/helm"⟩,
   ⟨"helm",
    ["sys_platform == \"linux\" and platform_machine == \"x86_64\""],
    "linux-amd64", "tar", "linux-amd64/helm"⟩,
   ⟨"helm",
    ["sys_platform == \"linux\" and platform_machine == \"ppc64\"",
     "sys_platform == \"linux\" and platform_machine == \"ppc64le\""],
    "linux-ppc64le", "tar", "linux-ppc64le/helm"⟩,
   ⟨"helm",
    ["sys_platform == \"linux\" and platform_machine == \"s390x\""],
    "linux-s390x", "tar", "linux-s390x/helm"⟩,
   ⟨"helm",
    ["sys_platform == \"darwin\" and platform_machine == \"arm64\""],
    "darwin-arm64", "tar", "darwin-arm64/helm"⟩,
   ⟨"helm",
    ["sys_platform == \"darwin\" and platform_machine == \"x86_64\""],
    "darwin-amd64", "tar", "darwin-amd64/helm"⟩,
   ⟨"helm.exe",
    ["sys_platform == \"win32\" and platform_machine == \"AMD64\"",
     "sys_platform == \"cygwin\" and platform_machine == \"x86_64\""],
    "windows-amd64", "zip", "windows-amd64/helm.exe"⟩,
   ⟨"helm.exe",
    ["sys_platform == \"win32\" and platform_machine == \"ARM64\"",
     "sys_platform == \"cygwin\" and platform_machine == \"aarch64\""],
    "windows-arm64", "zip", "windows-arm64/helm.exe"⟩]

/-- Join lines with `'\n'` separators, as in the dedented and stripped
template text (no leading or trailing newline). -/
def joinLines : List String → String
  | [] => ""
  | [l] => l
  | l :: l' :: ls => l ++ "\n" ++ joinLines (l' :: ls)

/-- The text of one template section with the platform's descriptor
substituted for that section's `data[...][...]` interpolations. -/
def renderSection (d : Descriptor) (s : ScriptSection) : String :=
  joinLines (["[" ++ s.header ++ "]", "group = helm-binary"]
    ++ s.markers.map (fun m => "marker = " ++ m)
    ++ ["url = " ++ d.url, "sha256 = " ++ d.sha256,
        "extract = " ++ s.extract, "extract_path = " ++ s.extract_path])

/-- Render each template section in order; the first `data[...]` lookup
with a missing platform key raises that KeyError (f-string
interpolations are evaluated in order of appearance). -/
def renderSections (data : List (String × Descriptor)) :
    List ScriptSection → Except PyErr (List String)
  | [] => .ok []
  | s :: rest =>
    match data.lookup s.platformKey with
    | none => .error (.keyError s.platformKey)
    | some d => (renderSections data rest).map (fun ls => renderSection d s :: ls)

/-- Lines 73-158: `download_scripts = dedent(f'''...''').strip()`.
Every line of the f-string carries the same 8-space margin, which
`dedent` removes; `strip()` then drops the surrounding blank lines, so
the value is the sections' lines joined by single newlines. -/
def download_scripts (data : List (String × Descriptor)) : Except PyErr String :=
  (renderSections data templateSections).map joinLines

/-- Python `str.splitlines()` restricted to `'\n'` boundaries — the only
line terminator the rendered text contains, and it never ends in one. -/
def pySplitlines (s : String) : List String :=
  s.split (fun c => c = '\n')

/-- Lines 36-165: the body of `main`.  `tag` is `args.tag` (`none` when
`--tag` is absent).  The first component is the list of checksum URLs
requested, in order.  The `.ok` payload is `download_scripts.splitlines()`,
the lines written into `setuptools_download.download_scripts` before
`config.update_file()` persists the document (lines 160-163); an
`.error` models the exception aborting the process before any write, the
config file left unchanged. -/
def main (tag : Option String) (env : Env) : List String × Except PyErr (List String) :=
  match env.configVersion with
  | .nonStr => ([], .error (.valueError "Metadata version must be of type: str"))
  | .str config_version =>
    match fetchLoop env.net (selectVersion tag (config_tag config_version)) URL_PATTERNS with
    | (reqs, .error e) => (reqs, .error e)
    | (reqs, .ok data) =>
      match download_scripts data with
      | .error e => (reqs, .error e)
      | .ok text => (reqs, .ok (pySplitlines text))

/-- C5: when `metadata.version` is not a string, `main` raises the
ValueError of line 56 having issued no network request (empty request
list) and written nothing (`.error` result, so `config.update_file()` on
line 163 is never reached). -/
theorem main_version_type_error (tag : Option String) (net : Net) :
    main tag ⟨net, .nonStr⟩ =
      ([], .error (.valueError "Metadata version must be of type: str")) := rfl

theorem fetchLoop_error_on_split (net : Net) (version : String)
    (done rest : List (String × String)) (p : String × String) (e : PyErr)
    (hdone : ∀ q ∈ done, ∃ h, get_hash_from_url net (sha256_url q.2 version) = .ok h)
    (hp : get_hash_from_url net (sha256_url p.2 version) = .error e) :
    fetchLoop net version (done ++ p :: rest) =
      (done.map (fun q => sha256_url q.2 version) ++ [sha256_url p.2 version],
       .error e) := by
  induction done with
  | nil =>
    cases p with
    | mk platform pat => simp [fetchLoop, hp]
  | cons q qs ih =>
    obtain ⟨h, hq⟩ := hdone q (by simp)
    cases q with
    | mk platform pat =>
      have ihh := ih (fun q' hq' => hdone q' (by simp [hq']))
      simp [fetchLoop, hq, ihh, Except.map]

/-- C4: platforms are fetched strictly one at a time in `URL_PATTERNS`
order; if the checksum fetch for any platform fails (transport error or
non-success status), the requests issued are exactly those of the
successful prefix plus the failing platform's URL — no later platform is
contacted — and `main` propagates the error, so the configuration
document is never written. -/
theorem main_aborts_on_fetch_failure (tag : Option String) (net : Net)
    (config_version : String) (done rest : List (String × String))
    (p : String × String) (e : PyErr)
    (hsplit : URL_PATTERNS = done ++ p :: rest)
    (hdone : ∀ q ∈ done, ∃ h,
      get_hash_from_url net
        (sha256_url q.2 (selectVersion tag (config_tag config_version))) = .ok h)
    (hp : get_hash_from_url net
        (sha256_url p.2 (selectVersion tag (config_tag config_version))) = .error e) :
    main tag ⟨net, .str config_version⟩ =
      (done.map (fun q =>
          sha256_url q.2 (selectVersion tag (config_tag config_version)))
        ++ [sha256_url p.2 (selectVersion tag (config_tag config_version))],
       .error e) := by
  have h := fetchLoop_error_on_split net (selectVersion tag (config_tag config_version))
    done rest p e hdone hp
  rw [← hsplit] at h
  simp [main, h]

/-- Witness for `main_aborts_on_fetch_failure`: a network that fails on
every request aborts on the very first platform, `linux-arm`. -/
theorem main_aborts_on_fetch_failure_witness :
    main none ⟨fun _ => none, ConfigVal.str "1.0"⟩ =
      ([sha256_url "https://get.helm.sh/helm-%s-linux-arm.tar.gz"
          (selectVersion none (config_tag "1.0"))],
       .error (.httpError (sha256_url "https://get.helm.sh/helm-%s-linux-arm.tar.gz"
          (selectVersion none (config_tag "1.0"))))) := by
  have h := main_aborts_on_fetch_failure none (fun _ => none) "1.0" []
    (URL_PATTERNS.drop 1)
    ("linux-arm", "https://get.helm.sh/helm-%s-linux-arm.tar.gz")
    (.httpError (sha256_url "https://get.helm.sh/helm-%s-linux-arm.tar.gz"
      (selectVersion none (config_tag "1.0"))))
    rfl (by intro q hq; simp at hq) rfl
  simpa using h

theorem renderSections_error_of_missing (data : List (String × Descriptor)) :
    ∀ secs : List ScriptSection,
      (∃ s ∈ secs, data.lookup s.platformKey = none) →
      ∃ k, renderSections data secs = .error (.keyError k) := by
  intro secs
  induction secs with
  | nil =>
    rintro ⟨s, hs, -⟩
    simp at hs
  | cons s rest ih =>
    rintro ⟨s', hs', hnone⟩
    cases hlook : data.lookup s.platformKey with
    | none => exact ⟨s.platformKey, by simp [renderSections, hlook]⟩
    | some d =>
      rcases List.mem_cons.mp hs' with he | hmem
      · subst he
        rw [hlook] at hnone
        cases hnone
      · obtain ⟨k, hk⟩ := ih ⟨s', hmem, hnone⟩
        exact ⟨k, by simp [renderSections, hlook, hk, Except.map]⟩

/-- C6: if the platform → descriptor mapping lacks any platform key
referenced by the fixed template, rendering `download_scripts` fails
deterministically with a KeyError. -/
theorem download_scripts_missing_key (data : List (String × Descriptor))
    (h : ∃ s ∈ templateSections, data.lookup s.platformKey = none) :
    ∃ k, download_scripts data = .error (.keyError k) := by
  obtain ⟨k, hk⟩ := renderSections_error_of_missing data templateSections h
  exact ⟨k, by simp [download_scripts, hk, Except.map]⟩

/-- Witness for `download_scripts_missing_key`: the empty mapping is
missing every key, in particular `linux-arm`. -/
theorem download_scripts_missing_key_witness :
    ∃ k, download_scripts [] = .error (.keyError k) :=
  download_scripts_missing_key []
    ⟨⟨"helm",
      ["sys_platform == \"linux\" and platform_machine == \"armv6hf\"",
       "sys_platform == \"linux\" and platform_machine == \"armv7l\""],
      "linux-arm", "tar", "linux-arm/helm"⟩, by decide, rfl⟩

/-- `sub` occurs contiguously inside `whole`. -/
def containsSub (sub whole : String) : Prop :=
  ∃ a b : List Char, whole.data = a ++ sub.data ++ b

theorem string_data_append (a b : String) : (a ++ b).data = a.data ++ b.data := by
  cases a
  cases b
  rfl

theorem joinLines_containsSub (x : String) (l : List String) (hx : x ∈ l) :
    containsSub x (joinLines l) := by
  induction l with
  | nil => simp at hx
  | cons y ys ih =>
    cases ys with
    | nil =>
      simp at hx
      subst hx
      exact ⟨[], [], by simp [joinLines]⟩
    | cons z zs =>
      rcases List.mem_cons.mp hx with he | hmem
      · subst he
        refine ⟨[], '\n' :: (joinLines (z :: zs)).data, ?_⟩
        simp [joinLines, string_data_append]
      · obtain ⟨a, b, hab⟩ := ih hmem
        refine ⟨y.data ++ '\n' :: a, b, ?_⟩
        simp [joinLines, string_data_append, hab]

theorem renderSections_ok_of_complete (data : List (String × Descriptor)) :
    ∀ secs : List ScriptSection,
      (∀ s ∈ secs, ∃ d, data.lookup s.platformKey = some d) →
      ∃ lines, renderSections data secs = .ok lines ∧
        ∀ s ∈ secs, ∀ d, data.lookup s.platformKey = some d →
          renderSection d s ∈ lines := by
  intro secs
  induction secs with
  | nil => exact fun _ => ⟨[], rfl, by simp⟩
  | cons s rest ih =>
    intro h
    obtain ⟨d, hd⟩ := h s (by simp)
    obtain ⟨lines, hlines, hmem⟩ := ih (fun s' hs' => h s' (by simp [hs']))
    refine ⟨renderSection d s :: lines, ?_, ?_⟩
    · simp [renderSections, hd, hlines, Except.map]
    · rintro s' hs' d' hd'
      rcases List.mem_cons.mp hs' with he | hm
      · subst he
        rw [hd] at hd'
        obtain rfl := Option.some.inj hd'
        simp
      · exact List.mem_cons_of_mem _ (hmem s' hm d' hd')

/-- C7: with a mapping covering every template key, `download_scripts`
succeeds; the renderer is a pure function of its input, so two
invocations on identical input are byte-identical; and the rendered text
contains one whole section per platform, with that platform's url and
sha256 and the section's static extract method and path substituted. -/
theorem download_scripts_complete (data : List (String × Descriptor))
    (h : ∀ s ∈ templateSections, ∃ d, data.lookup s.platformKey = some d) :
    ∃ out, download_scripts data = .ok out ∧
      download_scripts data = download_scripts data ∧
      ∀ s ∈ templateSections, ∀ d, data.lookup s.platformKey = some d →
        containsSub (renderSection d s) out := by
  obtain ⟨lines, hlines, hmem⟩ := renderSections_ok_of_complete data templateSections h
  refine ⟨joinLines lines, by simp [download_scripts, hlines, Except.map], rfl, ?_⟩
  intro s hs d hd
  exact joinLines_containsSub _ _ (hmem s hs d hd)

/-- Witness for `download_scripts_complete`, at the mapping that sends
each template key to a dummy descriptor. -/
theorem download_scripts_complete_witness :
    ∃ out, download_scripts
        (templateSections.map (fun s => (s.platformKey, ⟨"u", "h"⟩))) = .ok out ∧
      download_scripts (templateSections.map (fun s => (s.platformKey, ⟨"u", "h"⟩))) =
        download_scripts (templateSections.map (fun s => (s.platformKey, ⟨"u", "h"⟩))) ∧
      ∀ s ∈ templateSections, ∀ d,
        (templateSections.map (fun s => (s.platformKey, ⟨"u", "h"⟩))).lookup s.platformKey
          = some d →
        containsSub (renderSection d s)
          out :=
  download_scripts_complete (templateSections.map (fun s => (s.platformKey, ⟨"u", "h"⟩)))
    (by intro s hs; fin_cases hs <;> exact ⟨_, rfl⟩)

theorem lookup_some_of_key_mem (data : List (String × Descriptor)) (k : String)
    (hk : k ∈ data.map Prod.fst) : ∃ d, data.lookup k = some d := by
  induction data with
  | nil => simp at hk
  | cons q rest ih =>
    cases q with
    | mk a b =>
      simp only [List.map_cons, List.mem_cons] at hk
      by_cases he : k = a
      · exact ⟨b, by simp [List.lookup, he]⟩
      · obtain ⟨d, hd⟩ := ih (hk.resolve_left he)
        have : (k == a) = false := beq_false_of_ne he
        exact ⟨d, by simp [List.lookup, this, hd]⟩

theorem fetchLoop_ok_shape (net : Net) (version : String) :
    ∀ pats : List (String × String), ∀ reqs data,
      fetchLoop net version pats = (reqs, .ok data) →
      data.map Prod.fst = pats.map Prod.fst ∧
      reqs = pats.map (fun p => sha256_url p.2 version) := by
  intro pats
  induction pats with
  | nil =>
    intro reqs data h
    simp [fetchLoop] at h
    obtain ⟨h1, h2⟩ := h
    subst h1
    subst h2
    simp
  | cons p rest ih =>
    intro reqs data h
    cases p with
    | mk platform pat =>
      rw [fetchLoop] at h
      cases hg : get_hash_from_url net (sha256_url pat version) with
      | error e =>
        rw [hg] at h
        simp at h
      | ok sha =>
        rw [hg] at h
        cases hf : fetchLoop net version rest with
        | mk reqs' res =>
          rw [hf] at h
          cases res with
          | error e => simp [Except.map] at h
          | ok d' =>
            simp only [Except.map, Prod.mk.injEq, Except.ok.injEq] at h
            obtain ⟨hreq, hdata⟩ := h
            obtain ⟨h1, h2⟩ := ih reqs' d' hf
            subst hreq
            subst hdata
            simp [h1, h2]

/-- C10: when the fetch loop completes, the built mapping's keys are
exactly the `URL_PATTERNS` keys in order; exactly one checksum request
was issued per platform key; the template references a permutation of
(hence exactly the same set as) those keys; and every lookup during
rendering succeeds, so `download_scripts` returns `.ok` — its KeyError
branch is unreachable in the end-to-end run. -/
theorem fetch_then_render_total (net : Net) (version : String)
    (reqs : List String) (data : List (String × Descriptor))
    (h : fetchLoop net version URL_PATTERNS = (reqs, .ok data)) :
    data.map Prod.fst = URL_PATTERNS.map Prod.fst ∧
    reqs = URL_PATTERNS.map (fun p => sha256_url p.2 version) ∧
    reqs.length = URL_PATTERNS.length ∧
    (templateSections.map ScriptSection.platformKey).Perm (URL_PATTERNS.map Prod.fst) ∧
    ∃ out, download_scripts data = .ok out := by
  obtain ⟨hkeys, hreqs⟩ := fetchLoop_ok_shape net version URL_PATTERNS reqs data h
  have hperm :
      (templateSections.map ScriptSection.platformKey).Perm (URL_PATTERNS.map Prod.fst) := by
    decide
  have hcomplete : ∀ s ∈ templateSections, ∃ d, data.lookup s.platformKey = some d := by
    intro s hs
    have hk : s.platformKey ∈ URL_PATTERNS.map Prod.fst :=
      hperm.mem_iff.mp (List.mem_map_of_mem _ hs)
    rw [← hkeys] at hk
    exact lookup_some_of_key_mem data s.platformKey hk
  obtain ⟨lines, hlines, -⟩ := renderSections_ok_of_complete data templateSections hcomplete
  exact ⟨hkeys, hreqs, by simp [hreqs], hperm,
    ⟨joinLines lines, by simp [download_scripts, hlines, Except.map]⟩⟩

/-- Witness for `fetch_then_render_total`: a network answering every
request with status 200 and body `abc def` completes the loop, and the
resulting mapping renders successfully. -/
theorem fetch_then_render_total_witness :
    ∃ out, download_scripts
      (URL_PATTERNS.map (fun p =>
        (p.1, (⟨download_url p.2 "v1", "abc"⟩ : Descriptor)))) = .ok out := by
  have h : fetchLoop (fun _ => some ⟨200, "abc def"⟩) "v1" URL_PATTERNS =
      (URL_PATTERNS.map (fun p => sha256_url p.2 "v1"),
       .ok (URL_PATTERNS.map (fun p =>
         (p.1, (⟨download_url p.2 "v1", "abc"⟩ : Descriptor))))) := by rfl
  exact (fetch_then_render_total (fun _ => some ⟨200, "abc def"⟩) "v1"
    (URL_PATTERNS.map (fun p => sha256_url p.2 "v1"))
    (URL_PATTERNS.map (fun p => (p.1, ⟨download_url p.2 "v1", "abc"⟩)))
    h).2.2.2.2

end GenerateDownloads
